import Mathlib

/-!
Shallow embedding of the `resampled` repository: the `Resample` class of
`src/resampled.py` (methods `run_hypothesis` and `estimate_ci`) and the legacy
classes `Bootstrap` (`src/bootstrap.py`) and `permutation` (`src/permutation.py`).

Modelling conventions:
* A dataset row is a pair `(level, target)`.  Group labels are modelled as `ℚ`
  (the Python code accepts `str/int/float` labels and only compares them with
  `==`; numeric labels exercise every code path, including the `func` call on
  the levels column inside `estimate_ci`).  Target values are `ℚ` (the Python
  code computes with IEEE floats; all claims under study are about finite
  values, where exact rational arithmetic models the float expressions).
* The statistic `func` is an arbitrary total function `List ℚ → ℚ`, applied to
  the column values in row order, exactly as `DataFrame.apply(func, axis=0)`
  hands each column to `func`.
* Randomness: `pandas.DataFrame.sample` consumes entropy from the (optionally
  seeded) numpy random source.  We model the entropy consumed by resample
  iteration `i` as a list of natural numbers `draws[i]`: for sampling with
  replacement, entry `j` reduced modulo the population size is the index drawn
  for output position `j`; for sampling without replacement, entry `j` reduced
  modulo the remaining population size is the position picked (and removed)
  at step `j`.  Identical draw lists reproduce identical samples, which is the
  content of the determinism claims.
* The repetition count `R` is an `ℤ` (a Python `int`); `for i in range(0, R)`
  executes `max R 0` iterations.
* `sys.exit(...)` aborts the call without returning; for `estimate_ci`, whose
  permutation branch calls it, we model the result as `Except RErr`, mapping
  that abort to the `UnsupportedOperation` error kind.  `run_hypothesis` has no
  reachable abort once the strategy is one of the two `Method` values and
  `R ≥ 1`, so on that region it is a total function.  For `R < 1` the loop
  body never runs, the wide table keeps its original string column label, and
  line 99's `resampled_.loc[:, 0]` raises `KeyError`: `run_hypothesis_labeled`
  models this by tracking the pandas column labels of the wide table and
  wrapping `run_hypothesis` in `Except`.
-/

attribute [local semireducible] Rat.add Rat.mul Rat.inv Rat.sub

/-- The resampling strategy flag: `Resample.__init__` accepts exactly the two
strings `'bootstrap'` and `'permutation'` and aborts on anything else, so the
validated state is a closed two-case enumeration. -/
inductive Method where
  | bootstrap
  | permutation
deriving DecidableEq

/-- Error kinds of the design (spec section 7), together with `KeyError`, the
pandas label-lookup exception that the reference raises outside the design's
vocabulary.  The only design error the code in `src/` ever produces is
`UnsupportedOperation` (the `sys.exit` in the permutation branch of
`estimate_ci`); `KeyError` escapes from `resampled_.loc[:, 0]` when the wide
table has no integer column label `0` (the `R < 1` case). -/
inductive RErr where
  | EmptyGroup
  | InvalidArgument
  | UnsupportedOperation
  | ResamplingMethodUnknown
  | KeyError
deriving DecidableEq

/-- Model of `df[target].sample(n=df.shape[0], replace=True)`: one value is
drawn independently and uniformly for each of the `values.length` output
positions; entry `j` of the entropy list, reduced modulo the population size,
is the index drawn for position `j`. -/
def sampleReplace (values : List ℚ) (draw : List ℕ) : List ℚ :=
  (List.range values.length).map fun i =>
    values.getD ((draw.getD i 0) % values.length) 0

/-- Auxiliary recursion for sampling without replacement: `fuel` counts the
remaining picks, each step removes the picked element from the population. -/
def sampleNoReplaceAux : ℕ → List ℚ → List ℕ → List ℚ
  | 0, _, _ => []
  | fuel + 1, vs, draw =>
    let k := (draw.headD 0) % vs.length
    vs.getD k 0 :: sampleNoReplaceAux fuel (vs.eraseIdx k) draw.tail

/-- Model of `df[target].sample(n=df.shape[0], replace=False)`: all
`values.length` rows are drawn without replacement, i.e. the output is a
permutation of `values` selected by the successive entropy entries. -/
def sampleNoReplace (values : List ℚ) (draw : List ℕ) : List ℚ :=
  sampleNoReplaceAux values.length values draw

/-- Model of `df[(df[levels] == lvl1) | (df[levels] == lvl2)]`
(src/resampled.py line 73): keep the rows whose level is `lvl1` or `lvl2`. -/
def restrictTwo (rows : List (ℚ × ℚ)) (lvl1 lvl2 : ℚ) : List (ℚ × ℚ) :=
  rows.filter fun r => decide (r.1 = lvl1) || decide (r.1 = lvl2)

/-- Model of src/resampled.py lines 76-79: the observed difference of the
statistic, `func(x) - func(y)` where `x`/`y` are the target values of the
reduced dataframe's rows at level `lvl1`/`lvl2`. -/
def obs_diff_statistic (rows : List (ℚ × ℚ)) (lvl1 lvl2 : ℚ)
    (func : List ℚ → ℚ) : ℚ :=
  let df := restrictTwo rows lvl1 lvl2
  func ((df.filter fun r => decide (r.1 = lvl1)).map (·.2)) -
    func ((df.filter fun r => decide (r.1 = lvl2)).map (·.2))

/-- Model of `resampled1.loc[:, c].` restricted to the rows of the wide table
whose levels column equals `lvl`: the entries of resample column `b` at the
positions where the levels column `ls` holds `lvl`. -/
def selectByLevel (ls : List ℚ) (b : List ℚ) (lvl : ℚ) : List ℚ :=
  ((ls.zip b).filter fun p => decide (p.1 = lvl)).map (·.2)

/-- The `R` resample columns accumulated by the loop in src/resampled.py
lines 83-94 (`pd.concat` appends column `i` of the wide table at label
`i + 1`). -/
def resampleColumns (method : Method) (values : List ℚ) (R : ℤ)
    (draws : List (List ℕ)) : List (List ℚ) :=
  (List.range R.toNat).map fun i =>
    match method with
    | .bootstrap => sampleReplace values (draws.getD i [])
    | .permutation => sampleNoReplace values (draws.getD i [])

/-- Model of `Resample.run_hypothesis` (src/resampled.py lines 35-111).
Returns the triple `(resampled_, resampled_diff, pval)`: the wide table
(levels column together with the `R` resample columns, its labels-0 rename
being cosmetic), the per-column difference of the statistic between the two
levels, and the p-value `np.sum((resampled_diff - obs) >= 0) / R`.  This plain
function is the reference behaviour for `R ≥ 1`; for `R < 1` the reference
raises `KeyError` at the line-99 column lookup instead of reaching the return,
which `run_hypothesis_labeled` below captures by tracking the wide table's
pandas column labels. -/
def run_hypothesis (method : Method) (rows : List (ℚ × ℚ)) (lvl1 lvl2 : ℚ)
    (R : ℤ) (func : List ℚ → ℚ) (draws : List (List ℕ)) :
    (List ℚ × List (List ℚ)) × List ℚ × ℚ :=
  let df := restrictTwo rows lvl1 lvl2
  let obs := obs_diff_statistic rows lvl1 lvl2 func
  let ls := df.map (·.1)
  let cols := resampleColumns method (df.map (·.2)) R draws
  let diffs := cols.map fun b =>
    func (selectByLevel ls b lvl1) - func (selectByLevel ls b lvl2)
  let pval := ((diffs.filter fun d => decide (0 ≤ d - obs)).length : ℚ) / (R : ℚ)
  ((ls, cols), diffs, pval)

/-- Linear interpolation between order statistics at fractional index `h`
over the sorted list `s` (numpy's default `linear` interpolation method):
with `i = ⌊h⌋` and `g = h - i`, the value is `s[i] + g * (s[i+1] - s[i])`,
the upper index falling back to the lower value when it is out of range
(numpy never reads it then, since `g = 0` at `h = n - 1`). -/
def interpAt (s : List ℚ) (h : ℚ) : ℚ :=
  let i := (⌊h⌋).toNat
  let lo := s.getD i 0
  let hi := s.getD (i + 1) lo
  lo + (h - (⌊h⌋ : ℚ)) * (hi - lo)

/-- Model of `np.percentile(a, q)` with the default linear interpolation:
sort ascending and interpolate at fractional position `(q/100) * (n-1)`. -/
def percentile (l : List ℚ) (q : ℚ) : ℚ :=
  if l = [] then 0
  else interpAt (l.insertionSort (· ≤ ·)) ((q / 100) * ((l.length : ℚ) - 1))

/-- Model of src/resampled.py lines 146-162: the Series
`bootstrapped_stat = df_.loc[:, 1:R].apply(func, axis=0)`.  After
`reset_index()` the reduced dataframe keeps its old index as a column, so
`df_ = df.drop(columns=[target])` has TWO columns (`index`, `levels`); after
the `R` concatenations the wide table's integer labels are `0 = index`,
`1 = levels`, `2 .. R+1 = ` the resample columns, and the inclusive label
slice `1:R` therefore selects the levels column followed by only the first
`R - 1` resample columns. -/
def ciStats (rows : List (ℚ × ℚ)) (lvl : ℚ) (R : ℤ) (func : List ℚ → ℚ)
    (draws : List (List ℕ)) : List ℚ :=
  let df := rows.filter fun r => decide (r.1 = lvl)
  let levelsCol := df.map (·.1)
  let cols := (List.range R.toNat).map fun i =>
    sampleReplace (df.map (·.2)) (draws.getD i [])
  if R ≤ 0 then [] else func levelsCol :: (cols.take (R.toNat - 1)).map func

/-- Model of `Resample.estimate_ci` (src/resampled.py lines 113-168): under
the permutation strategy the `sys.exit` call aborts before anything is
computed (modelled as the `UnsupportedOperation` error); under bootstrap it
returns the statistic Series together with
`ci = (percentile(stat, 100 - 0.5*100*alpha), percentile(stat, 0.5*100*alpha))`. -/
def estimate_ci (method : Method) (rows : List (ℚ × ℚ)) (lvl : ℚ) (R : ℤ)
    (func : List ℚ → ℚ) (alpha_level : ℚ) (draws : List (List ℕ)) :
    Except RErr (List ℚ × (ℚ × ℚ)) :=
  match method with
  | .permutation => .error .UnsupportedOperation
  | .bootstrap =>
    let stats := ciStats rows lvl R func draws
    .ok (stats, (percentile stats (100 - 50 * alpha_level),
                 percentile stats (50 * alpha_level)))

/-- Model of `Bootstrap.calculate_pvalue` (src/bootstrap.py lines 49-109).
The method returns only `boot_m_diff` and prints the observed difference and
the p-value; the printed values are part of the observable behaviour, so the
model returns the triple `(obs_diff_statistic, boot_m_diff, pval)`. -/
def calculate_pvalue_bootstrap (rows : List (ℚ × ℚ)) (lvl1 lvl2 : ℚ) (B : ℤ)
    (func : List ℚ → ℚ) (draws : List (List ℕ)) : ℚ × List ℚ × ℚ :=
  let df := rows.filter fun r => decide (r.1 = lvl1) || decide (r.1 = lvl2)
  let x := (df.filter fun r => decide (r.1 = lvl1)).map (·.2)
  let y := (df.filter fun r => decide (r.1 = lvl2)).map (·.2)
  let obs := func x - func y
  let ls := df.map (·.1)
  let cols := (List.range B.toNat).map fun i =>
    sampleReplace (df.map (·.2)) (draws.getD i [])
  let diffs := cols.map fun b =>
    func (selectByLevel ls b lvl1) - func (selectByLevel ls b lvl2)
  let pval := ((diffs.filter fun d => decide (0 ≤ d - obs)).length : ℚ) / (B : ℚ)
  (obs, diffs, pval)

/-- Model of `permutation.calculate_pvalue` (src/permutation.py lines 39-97),
with the printed observed difference and p-value as outputs, as for
`calculate_pvalue_bootstrap`. -/
def calculate_pvalue_permutation (rows : List (ℚ × ℚ)) (lvl1 lvl2 : ℚ) (P : ℤ)
    (func : List ℚ → ℚ) (draws : List (List ℕ)) : ℚ × List ℚ × ℚ :=
  let df := rows.filter fun r => decide (r.1 = lvl1) || decide (r.1 = lvl2)
  let x := (df.filter fun r => decide (r.1 = lvl1)).map (·.2)
  let y := (df.filter fun r => decide (r.1 = lvl2)).map (·.2)
  let obs := func x - func y
  let ls := df.map (·.1)
  let cols := (List.range P.toNat).map fun i =>
    sampleNoReplace (df.map (·.2)) (draws.getD i [])
  let diffs := cols.map fun b =>
    func (selectByLevel ls b lvl1) - func (selectByLevel ls b lvl2)
  let pval := ((diffs.filter fun d => decide (0 ≤ d - obs)).length : ℚ) / (P : ℚ)
  (obs, diffs, pval)

/-- The statistic `np.sum` as a concrete `func` (`np.sum` of an empty Series
is `0.0`, so the model is exact also on empty groups). -/
def listSum (l : List ℚ) : ℚ := l.sum

/-- The statistic `np.mean` as a concrete `func` on non-empty sequences
(on an empty sequence `np.mean` is NaN, which `ℚ` does not represent; the
concrete inputs below only apply it to non-empty columns). -/
def listMean (l : List ℚ) : ℚ := l.sum / (l.length : ℚ)

/-- A pandas column label of the wide table `resampled_`: the single column of
`df[[levels]]` carries the dataset's string column name (`name`), and each
`pd.concat(..., axis=1, ignore_index=True)` replaces every label by its
integer position (`num`). -/
inductive ColLabel where
  | name
  | num : ℕ → ColLabel
deriving DecidableEq

/-- One loop iteration's effect on the wide table's column labels:
`pd.concat([resampled_, b], axis=1, ignore_index=True)` appends one column and
relabels all columns `0, 1, ..., k`. -/
def concatRelabel (labels : List ColLabel) : List ColLabel :=
  (List.range (labels.length + 1)).map ColLabel.num

/-- The wide table's column labels after `k` iterations of the resampling
loop, starting from the single string-labeled levels column. -/
def resampledLabelsAux : ℕ → List ColLabel
  | 0 => [ColLabel.name]
  | k + 1 => concatRelabel (resampledLabelsAux k)

/-- The wide table's column labels when `run_hypothesis` reaches line 99:
`for i in range(0, R)` performs `max R 0` concatenations. -/
def resampledLabels (R : ℤ) : List ColLabel :=
  resampledLabelsAux R.toNat

/-- Model of `Resample.run_hypothesis` including the pandas column-label state
of the wide table: line 99's `resampled_.loc[:, 0]` looks up the integer
column label `0`, which exists only after at least one `ignore_index=True`
concat.  With `R < 1` the loop never runs, the single column keeps its string
label, and the lookup raises `KeyError`, so the call aborts with no result;
otherwise the call returns exactly `run_hypothesis`. -/
def run_hypothesis_labeled (method : Method) (rows : List (ℚ × ℚ))
    (lvl1 lvl2 : ℚ) (R : ℤ) (func : List ℚ → ℚ) (draws : List (List ℕ)) :
    Except RErr ((List ℚ × List (List ℚ)) × List ℚ × ℚ) :=
  if ColLabel.num 0 ∈ resampledLabels R then
    .ok (run_hypothesis method rows lvl1 lvl2 R func draws)
  else
    .error .KeyError

/-! ### Helper lemmas -/

/-- Filtering the two-level restriction back down to level `lvl1` is the same
as filtering the original rows: the pre-restriction loses no `lvl1` row. -/
lemma filter_restrictTwo_left (rows : List (ℚ × ℚ)) (lvl1 lvl2 : ℚ) :
    (restrictTwo rows lvl1 lvl2).filter (fun r => decide (r.1 = lvl1)) =
      rows.filter (fun r => decide (r.1 = lvl1)) := by
  unfold restrictTwo
  rw [List.filter_filter]
  apply List.filter_congr
  intro a _
  by_cases h : a.1 = lvl1 <;> simp [h]

/-- Symmetric statement for the second level. -/
lemma filter_restrictTwo_right (rows : List (ℚ × ℚ)) (lvl1 lvl2 : ℚ) :
    (restrictTwo rows lvl1 lvl2).filter (fun r => decide (r.1 = lvl2)) =
      rows.filter (fun r => decide (r.1 = lvl2)) := by
  unfold restrictTwo
  rw [List.filter_filter]
  apply List.filter_congr
  intro a _
  by_cases h : a.1 = lvl2 <;> simp [h]

/-- The observed difference equals the claim's formula over the unrestricted
dataset: restricting to the two levels first does not change either group. -/
lemma obs_diff_statistic_eq (rows : List (ℚ × ℚ)) (lvl1 lvl2 : ℚ)
    (func : List ℚ → ℚ) :
    obs_diff_statistic rows lvl1 lvl2 func =
      func ((rows.filter fun r => decide (r.1 = lvl1)).map (·.2)) -
        func ((rows.filter fun r => decide (r.1 = lvl2)).map (·.2)) := by
  simp only [obs_diff_statistic, filter_restrictTwo_left, filter_restrictTwo_right]

/-- The empirical difference distribution has one entry per loop iteration. -/
lemma run_hypothesis_diffs_length (m : Method) (rows : List (ℚ × ℚ))
    (lvl1 lvl2 : ℚ) (R : ℤ) (func : List ℚ → ℚ) (draws : List (List ℕ)) :
    (run_hypothesis m rows lvl1 lvl2 R func draws).2.1.length = R.toNat := by
  simp [run_hypothesis, resampleColumns]

/-- Moving the element at a valid index to the front is a permutation. -/
lemma getD_cons_eraseIdx_perm (l : List ℚ) : ∀ k : ℕ, k < l.length →
    List.Perm (l.getD k 0 :: l.eraseIdx k) l := by
  induction l with
  | nil => intro k hk; simp at hk
  | cons a tl ih =>
    intro k hk
    cases k with
    | zero => simp
    | succ k =>
      have hk' : k < tl.length := by simpa using hk
      have h1 := ih k hk'
      have hswap : List.Perm (tl.getD k 0 :: a :: tl.eraseIdx k)
          (a :: tl.getD k 0 :: tl.eraseIdx k) := List.Perm.swap a (tl.getD k 0) _
      simpa using hswap.trans (h1.cons a)

/-- Sampling without replacement with full fuel returns a permutation of the
population, whatever the entropy entries are. -/
lemma sampleNoReplaceAux_perm : ∀ (n : ℕ) (vs : List ℚ) (draw : List ℕ),
    vs.length = n → List.Perm (sampleNoReplaceAux n vs draw) vs := by
  intro n
  induction n with
  | zero =>
    intro vs draw h
    rw [List.length_eq_zero] at h
    subst h
    simp [sampleNoReplaceAux]
  | succ n ih =>
    intro vs draw h
    have hlen : 0 < vs.length := by omega
    have hk : (draw.headD 0) % vs.length < vs.length := Nat.mod_lt _ hlen
    have herase : (vs.eraseIdx ((draw.headD 0) % vs.length)).length = n := by
      have := List.length_eraseIdx_add_one hk
      omega
    have ih' := ih (vs.eraseIdx ((draw.headD 0) % vs.length)) draw.tail herase
    exact (ih'.cons _).trans (getD_cons_eraseIdx_perm vs _ hk)

/-- A without-replacement sample is always a permutation of its population. -/
lemma sampleNoReplace_perm (values : List ℚ) (draw : List ℕ) :
    List.Perm (sampleNoReplace values draw) values :=
  sampleNoReplaceAux_perm values.length values draw rfl

/-- After at least one concat, the wide table has an integer column label
`0`, so the line-99 lookup succeeds. -/
lemma num_zero_mem_resampledLabelsAux (k : ℕ) (hk : 0 < k) :
    ColLabel.num 0 ∈ resampledLabelsAux k := by
  cases k with
  | zero => omega
  | succ k =>
    simp only [resampledLabelsAux, concatRelabel, List.mem_map, List.mem_range]
    exact ⟨0, Nat.succ_pos _, rfl⟩

/-- On the region `R ≥ 1` the label-tracking model agrees with the plain
`run_hypothesis`: the lookup of column `0` succeeds and the full result is
returned. -/
lemma run_hypothesis_labeled_of_one_le (m : Method) (rows : List (ℚ × ℚ))
    (lvl1 lvl2 : ℚ) (R : ℤ) (func : List ℚ → ℚ) (draws : List (List ℕ))
    (hR : 1 ≤ R) :
    run_hypothesis_labeled m rows lvl1 lvl2 R func draws =
      .ok (run_hypothesis m rows lvl1 lvl2 R func draws) := by
  have hmem : ColLabel.num 0 ∈ resampledLabels R :=
    num_zero_mem_resampledLabelsAux R.toNat (by omega)
  unfold run_hypothesis_labeled
  rw [if_pos hmem]

example : sampleReplace [10, 20, 30] [2, 0, 2] = [30, 10, 30] := by decide
example : sampleNoReplace [10, 20, 30] [1, 1, 0] = [20, 30, 10] := by decide
example : percentile [0, 10, 10, 10, 10] (5/2) = 1 := by decide
example : percentile [0, 10, 10, 10, 10] (195/2) = 10 := by decide
example : percentile [5, 0, 5, 5, 10] 25 = 5 := by decide
example : percentile [5, 0, 5, 5, 10] 75 = 5 := by decide
example :
    run_hypothesis .bootstrap [(1, 4), (1, 3), (2, 7), (2, 5)] 1 2 1 listMean
      [[0, 1, 2, 3]] =
    (([1, 1, 2, 2], [[4, 3, 7, 5]]), [-(5/2)], 1) := by decide

/-- Sortedness gives index-monotone access. -/
lemma sorted_get_le (s : List ℚ) (hs : List.Sorted (· ≤ ·) s) (i j : ℕ)
    (hi : i < s.length) (hj : j < s.length) (hij : i ≤ j) :
    s.get ⟨i, hi⟩ ≤ s.get ⟨j, hj⟩ :=
  hs.rel_get_of_le (show (⟨i, hi⟩ : Fin s.length) ≤ ⟨j, hj⟩ from hij)

/-- `getD` at valid indices of a sorted list is index-monotone, whatever the
defaults. -/
lemma getD_le_getD_of_sorted (s : List ℚ) (hs : List.Sorted (· ≤ ·) s)
    (i j : ℕ) (d1 d2 : ℚ) (hi : i < s.length) (hj : j < s.length) (hij : i ≤ j) :
    s.getD i d1 ≤ s.getD j d2 := by
  rw [List.getD_eq_getElem s d1 hi, List.getD_eq_getElem s d2 hj]
  simpa [List.get_eq_getElem] using sorted_get_le s hs i j hi hj hij

/-- Linear interpolation between order statistics of a sorted list is monotone
in the fractional position, as long as the position stays within the range of
valid indices. -/
lemma interpAt_mono (s : List ℚ) (hs : List.Sorted (· ≤ ·) s) (h1 h2 : ℚ)
    (h0 : 0 ≤ h1) (h12 : h1 ≤ h2) (htop : h2 ≤ (s.length : ℚ) - 1) :
    interpAt s h1 ≤ interpAt s h2 := by
  have hn1 : (1 : ℚ) ≤ (s.length : ℚ) := by linarith
  have hn : 1 ≤ s.length := by exact_mod_cast hn1
  have hf1nn : 0 ≤ ⌊h1⌋ := Int.le_floor.mpr (by exact_mod_cast h0)
  have hf12 : ⌊h1⌋ ≤ ⌊h2⌋ := Int.floor_le_floor h12
  have hf2nn : 0 ≤ ⌊h2⌋ := le_trans hf1nn hf12
  have hf2top : ⌊h2⌋ ≤ (s.length : ℤ) - 1 := by
    have hle : ⌊h2⌋ ≤ ⌊(s.length : ℚ) - 1⌋ := Int.floor_le_floor htop
    have he : ((s.length : ℚ) - 1) = (((s.length : ℤ) - 1 : ℤ) : ℚ) := by
      push_cast
      ring
    rw [he, Int.floor_intCast] at hle
    exact hle
  have hi12 : ⌊h1⌋.toNat ≤ ⌊h2⌋.toNat := by omega
  have hi2n : ⌊h2⌋.toNat < s.length := by omega
  have hi1n : ⌊h1⌋.toNat < s.length := lt_of_le_of_lt hi12 hi2n
  have hfl1 : (⌊h1⌋ : ℚ) ≤ h1 := Int.floor_le h1
  have hfl1' : h1 < (⌊h1⌋ : ℚ) + 1 := Int.lt_floor_add_one h1
  have hfl2 : (⌊h2⌋ : ℚ) ≤ h2 := Int.floor_le h2
  have hfl2' : h2 < (⌊h2⌋ : ℚ) + 1 := Int.lt_floor_add_one h2
  simp only [interpAt]
  rcases eq_or_lt_of_le hi12 with heq | hlt
  · -- both positions interpolate inside the same segment
    have hFF : ⌊h2⌋ = ⌊h1⌋ := by omega
    rw [hFF]
    have hd : s.getD ⌊h1⌋.toNat 0 ≤
        s.getD (⌊h1⌋.toNat + 1) (s.getD ⌊h1⌋.toNat 0) := by
      by_cases hrange : ⌊h1⌋.toNat + 1 < s.length
      · exact getD_le_getD_of_sorted s hs _ _ _ _ hi1n hrange (Nat.le_succ _)
      · rw [List.getD_eq_default _ _ (le_of_not_lt hrange)]
    have hg : h1 - (⌊h1⌋ : ℚ) ≤ h2 - (⌊h1⌋ : ℚ) := by linarith
    have hmul := mul_le_mul_of_nonneg_right hg (by linarith : (0 : ℚ) ≤
      s.getD (⌊h1⌋.toNat + 1) (s.getD ⌊h1⌋.toNat 0) - s.getD ⌊h1⌋.toNat 0)
    linarith
  · -- the first position's segment ends at or before the second one starts
    have hsucc : ⌊h1⌋.toNat + 1 ≤ ⌊h2⌋.toNat := Nat.succ_le_of_lt hlt
    have hi1n' : ⌊h1⌋.toNat + 1 < s.length := lt_of_le_of_lt hsucc hi2n
    have hd1 : s.getD ⌊h1⌋.toNat 0 ≤
        s.getD (⌊h1⌋.toNat + 1) (s.getD ⌊h1⌋.toNat 0) :=
      getD_le_getD_of_sorted s hs _ _ _ _ hi1n hi1n' (Nat.le_succ _)
    have hstep2 : s.getD ⌊h1⌋.toNat 0 +
        (h1 - (⌊h1⌋ : ℚ)) * (s.getD (⌊h1⌋.toNat + 1) (s.getD ⌊h1⌋.toNat 0) -
          s.getD ⌊h1⌋.toNat 0) ≤
        s.getD (⌊h1⌋.toNat + 1) (s.getD ⌊h1⌋.toNat 0) := by
      have hg1 : h1 - (⌊h1⌋ : ℚ) ≤ 1 := by linarith
      have hmul := mul_le_mul_of_nonneg_right hg1 (by linarith : (0 : ℚ) ≤
        s.getD (⌊h1⌋.toNat + 1) (s.getD ⌊h1⌋.toNat 0) - s.getD ⌊h1⌋.toNat 0)
      linarith
    have hstep3 : s.getD (⌊h1⌋.toNat + 1) (s.getD ⌊h1⌋.toNat 0) ≤
        s.getD ⌊h2⌋.toNat 0 :=
      getD_le_getD_of_sorted s hs _ _ _ _ hi1n' hi2n hsucc
    have hd2 : s.getD ⌊h2⌋.toNat 0 ≤
        s.getD (⌊h2⌋.toNat + 1) (s.getD ⌊h2⌋.toNat 0) := by
      by_cases hrange : ⌊h2⌋.toNat + 1 < s.length
      · exact getD_le_getD_of_sorted s hs _ _ _ _ hi2n hrange (Nat.le_succ _)
      · rw [List.getD_eq_default _ _ (le_of_not_lt hrange)]
    have hstep4 : s.getD ⌊h2⌋.toNat 0 ≤ s.getD ⌊h2⌋.toNat 0 +
        (h2 - (⌊h2⌋ : ℚ)) * (s.getD (⌊h2⌋.toNat + 1) (s.getD ⌊h2⌋.toNat 0) -
          s.getD ⌊h2⌋.toNat 0) := by
      have hmul := mul_nonneg (by linarith : (0 : ℚ) ≤ h2 - (⌊h2⌋ : ℚ))
        (by linarith : (0 : ℚ) ≤
          s.getD (⌊h2⌋.toNat + 1) (s.getD ⌊h2⌋.toNat 0) - s.getD ⌊h2⌋.toNat 0)
      linarith
    linarith

/-- `np.percentile` with linear interpolation is monotone in `q` on the range
`[0, 100]`. -/
lemma percentile_mono (l : List ℚ) (q1 q2 : ℚ) (hq0 : 0 ≤ q1) (hq12 : q1 ≤ q2)
    (hq100 : q2 ≤ 100) : percentile l q1 ≤ percentile l q2 := by
  unfold percentile
  by_cases hl : l = []
  · simp [hl]
  · rw [if_neg hl, if_neg hl]
    have hsorted : List.Sorted (· ≤ ·) (l.insertionSort (· ≤ ·)) :=
      List.sorted_insertionSort _ l
    have hlen : (l.insertionSort (· ≤ ·)).length = l.length :=
      (List.perm_insertionSort _ l).length_eq
    have hn : 1 ≤ l.length := List.length_pos.mpr hl
    have hc : (0 : ℚ) ≤ (l.length : ℚ) - 1 := by
      have : (1 : ℚ) ≤ (l.length : ℚ) := by exact_mod_cast hn
      linarith
    apply interpAt_mono _ hsorted
    · positivity
    · have hq : q1 / 100 ≤ q2 / 100 := by linarith
      exact mul_le_mul_of_nonneg_right hq hc
    · rw [hlen]
      have hq : q2 / 100 ≤ 1 := by linarith
      nlinarith

/-! ### Claim theorems -/

/-- Claim C1: for every dataset in which both labels select at least one row,
every `R ≥ 1` and every total statistic `func`, the p-value returned by
`run_hypothesis` is `(count of resampled differences ≥ obs_diff) / R`, where
`obs_diff = func(target values at lvl1) - func(target values at lvl2)`, with
the one-sided `≥` comparison. -/
theorem run_hypothesis_pvalue_formula (m : Method) (rows : List (ℚ × ℚ))
    (lvl1 lvl2 : ℚ) (R : ℤ) (func : List ℚ → ℚ) (draws : List (List ℕ))
    (hR : 1 ≤ R)
    (h1 : rows.filter (fun r => decide (r.1 = lvl1)) ≠ [])
    (h2 : rows.filter (fun r => decide (r.1 = lvl2)) ≠ []) :
    (run_hypothesis m rows lvl1 lvl2 R func draws).2.2 =
      (((run_hypothesis m rows lvl1 lvl2 R func draws).2.1.filter fun dv =>
          decide (func ((rows.filter fun r => decide (r.1 = lvl1)).map (·.2)) -
            func ((rows.filter fun r => decide (r.1 = lvl2)).map (·.2)) ≤ dv)).length : ℚ) /
        (R : ℚ) := by
  simp only [run_hypothesis]
  rw [← obs_diff_statistic_eq rows lvl1 lvl2 func]
  congr 2
  refine congrArg List.length (List.filter_congr ?_)
  intro dv _
  rw [decide_eq_decide]
  exact sub_nonneg

/-- Claim C1, witness at a concrete input: the spec's own scenario (target
values 4,3 at level 1 and 7,5 at level 2, `func` the mean, one identity
bootstrap resample). -/
theorem run_hypothesis_pvalue_formula_witness :
    (1 : ℤ) ≤ 1 ∧
    ([((1:ℚ),(4:ℚ)), (1, 3), (2, 7), (2, 5)].filter
      (fun r => decide (r.1 = 1)) ≠ []) ∧
    ([((1:ℚ),(4:ℚ)), (1, 3), (2, 7), (2, 5)].filter
      (fun r => decide (r.1 = 2)) ≠ []) ∧
    (run_hypothesis .bootstrap [(1, 4), (1, 3), (2, 7), (2, 5)] 1 2 1 listMean
        [[0, 1, 2, 3]]).2.2 =
      (((run_hypothesis .bootstrap [(1, 4), (1, 3), (2, 7), (2, 5)] 1 2 1 listMean
          [[0, 1, 2, 3]]).2.1.filter fun dv =>
          decide (listMean (([((1:ℚ),(4:ℚ)), (1, 3), (2, 7), (2, 5)].filter
              fun r => decide (r.1 = 1)).map (·.2)) -
            listMean (([((1:ℚ),(4:ℚ)), (1, 3), (2, 7), (2, 5)].filter
              fun r => decide (r.1 = 2)).map (·.2)) ≤ dv)).length : ℚ) / ((1 : ℤ) : ℚ) :=
  ⟨by decide, by decide, by decide,
    run_hypothesis_pvalue_formula .bootstrap [(1, 4), (1, 3), (2, 7), (2, 5)]
      1 2 1 listMean [[0, 1, 2, 3]] (by decide) (by decide) (by decide)⟩

/-- Claim C2: for every `R ≥ 1` and every input, the empirical difference
distribution returned by `run_hypothesis` contains exactly `R` values. -/
theorem run_hypothesis_distribution_length (m : Method) (rows : List (ℚ × ℚ))
    (lvl1 lvl2 : ℚ) (R : ℤ) (func : List ℚ → ℚ) (draws : List (List ℕ))
    (hR : 1 ≤ R) :
    ((run_hypothesis m rows lvl1 lvl2 R func draws).2.1.length : ℤ) = R := by
  rw [run_hypothesis_diffs_length]
  omega

/-- Claim C2, witness at a concrete input. -/
theorem run_hypothesis_distribution_length_witness :
    (1 : ℤ) ≤ 3 ∧
    ((run_hypothesis .permutation [((1:ℚ),(4:ℚ)), (2, 7)] 1 2 3 listSum
      [[0, 1], [1, 0], [0, 0]]).2.1.length : ℤ) = 3 :=
  ⟨by decide,
    run_hypothesis_distribution_length .permutation [(1, 4), (2, 7)] 1 2 3
      listSum [[0, 1], [1, 0], [0, 0]] (by decide)⟩

/-- Claim C3, counterexample: with label `1` matching zero rows of the dataset
`[(2, 1)]`, `run_hypothesis` does not fail with `EmptyGroup` — it returns a
normal result (distribution `[-1]`, p-value `1`, the group-1 statistic having
been computed on the empty sequence), and `estimate_ci` likewise returns a
normal pair instead of failing. -/
theorem run_hypothesis_no_emptyGroup_failure :
    (run_hypothesis .bootstrap [((2:ℚ),(1:ℚ))] 1 2 1 listSum [[0]]).2 =
      ([-1], 1) ∧
    (estimate_ci .bootstrap [((2:ℚ),(1:ℚ))] 1 1 listSum (1/20) [[0]]).toOption =
      some ([0], (0, 0)) := by
  constructor <;> decide

/-- Claim C3, amended: neither `run_hypothesis` nor `estimate_ci` checks group
emptiness; with a label matching zero rows both proceed through all `R`
resampling iterations, apply the statistic to the empty sequence, and return a
normal result (no `EmptyGroup` failure exists in the code). -/
theorem run_hypothesis_no_emptyGroup_check (m : Method) (rows : List (ℚ × ℚ))
    (lvl1 lvl2 : ℚ) (R : ℤ) (func : List ℚ → ℚ) (alpha : ℚ)
    (draws : List (List ℕ))
    (hempty : rows.filter (fun r => decide (r.1 = lvl1)) = []) (hR : 1 ≤ R) :
    ((run_hypothesis m rows lvl1 lvl2 R func draws).2.1.length : ℤ) = R ∧
    obs_diff_statistic rows lvl1 lvl2 func =
      func [] - func ((rows.filter fun r => decide (r.1 = lvl2)).map (·.2)) ∧
    (estimate_ci .bootstrap rows lvl1 R func alpha draws).isOk = true := by
  refine ⟨?_, ?_, rfl⟩
  · rw [run_hypothesis_diffs_length]
    omega
  · rw [obs_diff_statistic_eq, hempty]
    simp

/-- Claim C3, amended, witness at a concrete input. -/
theorem run_hypothesis_no_emptyGroup_check_witness :
    ([((2:ℚ),(1:ℚ))].filter (fun r => decide (r.1 = 1)) = []) ∧ (1 : ℤ) ≤ 1 ∧
    (((run_hypothesis .bootstrap [((2:ℚ),(1:ℚ))] 1 2 1 listSum [[0]]).2.1.length : ℤ) = 1 ∧
      obs_diff_statistic [((2:ℚ),(1:ℚ))] 1 2 listSum =
        listSum [] - listSum (([((2:ℚ),(1:ℚ))].filter fun r => decide (r.1 = 2)).map (·.2)) ∧
      (estimate_ci .bootstrap [((2:ℚ),(1:ℚ))] 1 1 listSum (1/20) [[0]]).isOk = true) :=
  ⟨by decide, by decide,
    run_hypothesis_no_emptyGroup_check .bootstrap [(2, 1)] 1 2 1 listSum (1/20)
      [[0]] (by decide) (by decide)⟩

/-- Claim C4, counterexample: with `R = 0 < 1`, `run_hypothesis` does not fail
with `InvalidArgument`.  It fails with `KeyError` instead: the loop executes
zero times, so `resampled_` never goes through an `ignore_index=True` concat
and keeps its string column label, and `resampled_.loc[:, 0]` at line 99
raises — after the restriction, the observed-statistic computation, and the
degenerate resampling block, not as synchronous argument validation. -/
theorem run_hypothesis_R_zero_keyError :
    run_hypothesis_labeled .bootstrap [((1:ℚ),(4:ℚ)), (2, 7)] 1 2 0 listSum [] =
      .error .KeyError ∧
    run_hypothesis_labeled .bootstrap [((1:ℚ),(4:ℚ)), (2, 7)] 1 2 0 listSum [] ≠
      .error .InvalidArgument := by
  refine ⟨rfl, ?_⟩
  intro h
  rw [show run_hypothesis_labeled .bootstrap [((1:ℚ),(4:ℚ)), (2, 7)] 1 2 0 listSum [] =
      .error .KeyError from rfl] at h
  exact absurd (Except.error.inj h) (by decide)

/-- Claim C4, amended: for every `R < 1`, `run_hypothesis` does fail rather
than return any result, but not with `InvalidArgument` and not synchronously
before resampling work: the loop body never executes, the wide table keeps its
string column label, and the group-split lookup `resampled_.loc[:, 0]`
(line 99) raises `KeyError` after the restriction and the observed-statistic
computation. -/
theorem run_hypothesis_R_lt_one_keyError (m : Method) (rows : List (ℚ × ℚ))
    (lvl1 lvl2 : ℚ) (R : ℤ) (func : List ℚ → ℚ) (draws : List (List ℕ))
    (hR : R < 1) :
    run_hypothesis_labeled m rows lvl1 lvl2 R func draws = .error .KeyError := by
  have h0 : R.toNat = 0 := by omega
  unfold run_hypothesis_labeled resampledLabels
  rw [h0, if_neg]
  intro hmem
  simp [resampledLabelsAux] at hmem

/-- Claim C4, amended, witness at a concrete (negative) repetition count. -/
theorem run_hypothesis_R_lt_one_keyError_witness :
    (-2 : ℤ) < 1 ∧
    run_hypothesis_labeled .permutation [((1:ℚ),(4:ℚ)), (2, 7)] 1 2 (-2) listSum [] =
      .error .KeyError :=
  ⟨by decide,
    run_hypothesis_R_lt_one_keyError .permutation [(1, 4), (2, 7)] 1 2 (-2)
      listSum [] (by decide)⟩

/-- Claim C5: for every engine instance constructed with the permutation
strategy, `estimate_ci` fails with `UnsupportedOperation` (the `sys.exit` in
the permutation branch) and produces no empirical distribution: the error is
the entire result, with no partial value. -/
theorem estimate_ci_permutation_unsupported (rows : List (ℚ × ℚ)) (lvl : ℚ)
    (R : ℤ) (func : List ℚ → ℚ) (alpha : ℚ) (draws : List (List ℕ)) :
    estimate_ci .permutation rows lvl R func alpha draws =
      .error .UnsupportedOperation := rfl

/-- Claim C8: under the permutation strategy, every resample column drawn
inside `run_hypothesis` has the same length and the same multiset of values
as the (non-empty) restricted target column: it is a permutation of it. -/
theorem run_hypothesis_permutation_is_permutation (rows : List (ℚ × ℚ))
    (lvl1 lvl2 : ℚ) (R : ℤ) (func : List ℚ → ℚ) (draws : List (List ℕ)) (i : ℕ)
    (hne : restrictTwo rows lvl1 lvl2 ≠ []) (hi : i < R.toNat) :
    ((run_hypothesis .permutation rows lvl1 lvl2 R func draws).1.2.getD i []).length =
      ((restrictTwo rows lvl1 lvl2).map (·.2)).length ∧
    List.Perm ((run_hypothesis .permutation rows lvl1 lvl2 R func draws).1.2.getD i [])
      ((restrictTwo rows lvl1 lvl2).map (·.2)) := by
  have hcol : (run_hypothesis .permutation rows lvl1 lvl2 R func draws).1.2.getD i [] =
      sampleNoReplace ((restrictTwo rows lvl1 lvl2).map (·.2)) (draws.getD i []) := by
    simp only [run_hypothesis, resampleColumns]
    rw [List.getD_eq_getElem _ _ (by simpa using hi)]
    simp
  rw [hcol]
  exact ⟨(sampleNoReplace_perm _ _).length_eq, sampleNoReplace_perm _ _⟩

/-- Claim C8, witness at a concrete input. -/
theorem run_hypothesis_permutation_is_permutation_witness :
    restrictTwo [((1:ℚ),(4:ℚ)), (2, 7), (2, 5)] 1 2 ≠ [] ∧ 0 < (2 : ℤ).toNat ∧
    (((run_hypothesis .permutation [((1:ℚ),(4:ℚ)), (2, 7), (2, 5)] 1 2 2 listSum
        [[2, 0], [1, 1]]).1.2.getD 0 []).length =
      ((restrictTwo [((1:ℚ),(4:ℚ)), (2, 7), (2, 5)] 1 2).map (·.2)).length ∧
    List.Perm ((run_hypothesis .permutation [((1:ℚ),(4:ℚ)), (2, 7), (2, 5)] 1 2 2 listSum
        [[2, 0], [1, 1]]).1.2.getD 0 [])
      ((restrictTwo [((1:ℚ),(4:ℚ)), (2, 7), (2, 5)] 1 2).map (·.2))) :=
  ⟨by decide, by decide,
    run_hypothesis_permutation_is_permutation [(1, 4), (2, 7), (2, 5)] 1 2 2
      listSum [[2, 0], [1, 1]] 0 (by decide) (by decide)⟩

/-- Claim C9: the engine consumes randomness only through the injected
entropy (the seeded random source); two invocations of `run_hypothesis` or
`estimate_ci` with identical inputs and identical entropy produce identical
empirical distributions and p-values (and intervals). -/
theorem resample_deterministic (m : Method) (rows : List (ℚ × ℚ))
    (lvl1 lvl2 lvl : ℚ) (R : ℤ) (func : List ℚ → ℚ) (alpha : ℚ)
    (d1 d2 : List (List ℕ)) (h : d1 = d2) :
    run_hypothesis m rows lvl1 lvl2 R func d1 =
      run_hypothesis m rows lvl1 lvl2 R func d2 ∧
    estimate_ci m rows lvl R func alpha d1 =
      estimate_ci m rows lvl R func alpha d2 := by
  subst h
  exact ⟨rfl, rfl⟩

/-- Claim C9, witness at a concrete input. -/
theorem resample_deterministic_witness :
    [[(0:ℕ), 1]] = [[0, 1]] ∧
    (run_hypothesis .bootstrap [((1:ℚ),(4:ℚ)), (2, 7)] 1 2 1 listSum [[0, 1]] =
      run_hypothesis .bootstrap [((1:ℚ),(4:ℚ)), (2, 7)] 1 2 1 listSum [[0, 1]] ∧
    estimate_ci .bootstrap [((1:ℚ),(4:ℚ)), (2, 7)] 1 1 listSum (1/20) [[0, 1]] =
      estimate_ci .bootstrap [((1:ℚ),(4:ℚ)), (2, 7)] 1 1 listSum (1/20) [[0, 1]]) :=
  ⟨rfl,
    resample_deterministic .bootstrap [(1, 4), (2, 7)] 1 2 1 1 listSum (1/20)
      [[0, 1]] [[0, 1]] rfl⟩

/-- Claim C10: under identical entropy, `Resample('bootstrap').run_hypothesis`
computes the same observed difference, empirical difference distribution and
p-value as the legacy `Bootstrap.calculate_pvalue`, and the permutation
engine likewise matches the legacy `permutation.calculate_pvalue` (the legacy
printing/plotting side effects aside). -/
theorem resample_refines_legacy (rows : List (ℚ × ℚ)) (lvl1 lvl2 : ℚ) (R : ℤ)
    (func : List ℚ → ℚ) (draws : List (List ℕ)) :
    calculate_pvalue_bootstrap rows lvl1 lvl2 R func draws =
      (obs_diff_statistic rows lvl1 lvl2 func,
       (run_hypothesis .bootstrap rows lvl1 lvl2 R func draws).2.1,
       (run_hypothesis .bootstrap rows lvl1 lvl2 R func draws).2.2) ∧
    calculate_pvalue_permutation rows lvl1 lvl2 R func draws =
      (obs_diff_statistic rows lvl1 lvl2 func,
       (run_hypothesis .permutation rows lvl1 lvl2 R func draws).2.1,
       (run_hypothesis .permutation rows lvl1 lvl2 R func draws).2.2) :=
  ⟨rfl, rfl⟩

/-- Claim C6: the degenerate-scenario half of the claim fails on the code.
With target values `[10, 10, 10]` at the (numeric) level `0`, `R = 5`,
`func = mean` and `alpha_level = 0.05`, every bootstrap resample statistic is
`10`, yet the returned distribution is `[0, 10, 10, 10, 10]` — its first entry
is `func` applied to the LEVELS column, because the leftover `reset_index`
column shifts the wide table's labels and `df_.loc[:, 1:R]` picks up the
levels column and only `R - 1` resample columns — and the interval is
`(10, 1)`, not `(10, 10)` as the claim (and the method's own docstring)
require. -/
theorem estimate_ci_levels_column_bug :
    (estimate_ci .bootstrap [((0:ℚ),(10:ℚ)), (0, 10), (0, 10)] 0 5 listMean (1/20)
      [[0, 1, 2], [0, 0, 1], [1, 2, 0], [2, 2, 2], [1, 1, 1]]).toOption =
    some ([0, 10, 10, 10, 10], (10, 1)) := by decide

/-- Claim C7, counterexample: the bounds can be equal although the values of
the returned distribution are not all identical.  Here the distribution is
`[5, 0, 5, 5, 10]` and with `alpha_level = 0.5` both the 25th and the 75th
percentile interpolate to `5`, so the interval is `(5, 5)`. -/
theorem estimate_ci_equal_bounds_nonidentical :
    (estimate_ci .bootstrap [((5:ℚ),(0:ℚ)), (5, 5), (5, 10)] 5 5 listMean (1/2)
      [[0, 0, 0], [1, 1, 1], [1, 1, 1], [2, 2, 2], [0, 1, 2]]).toOption =
      some ([5, 0, 5, 5, 10], (5, 5)) ∧
    (([5, 0, 5, 5, 10] : List ℚ).all fun s => decide (s = 5)) = false := by
  constructor <;> decide

/-- Claim C7, amended: for every `alpha_level` in `(0, 1)`, every bootstrap
`estimate_ci` result has upper bound greater than or equal to its lower
bound; equality does not require all values to be identical. -/
theorem estimate_ci_upper_ge_lower (rows : List (ℚ × ℚ)) (lvl : ℚ) (R : ℤ)
    (func : List ℚ → ℚ) (alpha : ℚ) (draws : List (List ℕ))
    (h0 : 0 < alpha) (h1 : alpha < 1) :
    ∀ p ∈ (estimate_ci .bootstrap rows lvl R func alpha draws).toOption,
      p.2.2 ≤ p.2.1 := by
  intro p hp
  simp only [estimate_ci, Except.toOption, Option.mem_def, Option.some.injEq] at hp
  subst hp
  exact percentile_mono _ _ _ (by positivity) (by linarith) (by linarith)

/-- Claim C7, amended, witness at a concrete input. -/
theorem estimate_ci_upper_ge_lower_witness :
    (0:ℚ) < 1/2 ∧ (1:ℚ)/2 < 1 ∧
    ∀ p ∈ (estimate_ci .bootstrap [((5:ℚ),(0:ℚ)), (5, 5), (5, 10)] 5 5 listMean (1/2)
      [[0, 0, 0], [1, 1, 1], [1, 1, 1], [2, 2, 2], [0, 1, 2]]).toOption,
      p.2.2 ≤ p.2.1 :=
  ⟨one_half_pos, one_half_lt_one,
    estimate_ci_upper_ge_lower [(5, 0), (5, 5), (5, 10)] 5 5 listMean (1/2)
      [[0, 0, 0], [1, 1, 1], [1, 1, 1], [2, 2, 2], [0, 1, 2]]
      one_half_pos one_half_lt_one⟩
